import Mathlib

/-!
# Verification of the SES e-mail forwarder

A shallow embedding of the forwarder Lambda (the TypeScript sources under
`src/`): the address router (`transformRecipients`), the header rewriter
(`processMessage`), the sender parameter construction (`sendMessage`), the
spam filter (`filterSpam`), the event validation (`parseEvent`) and the
orchestrating `handler`, together with theorems about them.

JavaScript strings are modelled as `String`/`List Char`; JS objects used as
string maps are modelled as association lists; thrown JS values are modelled
with `Except`; the AWS clients are modelled as oracles (an `EnvModel`
record saying what each external call would return).
-/

namespace AwsSesForwarder

/-- The merged static configuration (interface `ForwarderConfig`).
`subjectPrefixVal` and `emailKeyPrefixVal` model the config fields
`subjectPrefix` and `emailKeyPrefix`. -/
structure ForwarderConfig where
  fromEmail : String
  subjectPrefixVal : String
  emailKeyPrefixVal : String
  forwardMapping : List (String × List String)
  allowPlusSign : Bool
  rejectSpam : Bool
  discordWebhookUrl : Option String
deriving DecidableEq, Repr

/-- The user-supplied `config.json` contents: any subset of the fields may be
present (absent fields are `none`). -/
structure UserConfig where
  fromEmail : Option String
  subjectPrefixVal : Option String
  emailKeyPrefixVal : Option String
  forwardMapping : Option (List (String × List String))
  allowPlusSign : Option Bool
  rejectSpam : Option Bool
  discordWebhookUrl : Option String
deriving DecidableEq, Repr

/-- `CONFIG = { ...defaults, ...config }`: the object-spread merge of the
defaults with `config.json` (a present key overrides the default). -/
def mkConfig (u : UserConfig) : ForwarderConfig :=
  { fromEmail := u.fromEmail.getD "noreply@example.com"
    subjectPrefixVal := u.subjectPrefixVal.getD ""
    emailKeyPrefixVal := u.emailKeyPrefixVal.getD ""
    forwardMapping := u.forwardMapping.getD []
    allowPlusSign := u.allowPlusSign.getD true
    rejectSpam := u.rejectSpam.getD true
    discordWebhookUrl := u.discordWebhookUrl }

/-! ## Character and string helpers (JS semantics) -/

/-- JS `String.prototype.toLowerCase`, restricted to ASCII (sufficient for
this development). -/
def jsLower (cs : List Char) : List Char := cs.map Char.toLower

/-- Index of the last occurrence of `c` (JS `lastIndexOf`), `none` if absent. -/
def lastIdxOf (c : Char) : List Char → Option Nat
  | [] => none
  | a :: r =>
    match lastIdxOf c r with
    | some i => some (i + 1)
    | none => if a = c then some 0 else none

/-- Is there an `'@'` strictly before any CR/LF?  This is the condition for
the JS regex `\+.*?@` to match starting right after a `'+'` (JS `.` matches
neither `\r` nor `\n`). -/
def hasAtBeforeNl : List Char → Bool
  | [] => false
  | c :: r => if c = '@' then true else if c = '\r' ∨ c = '\n' then false else hasAtBeforeNl r

/-- Drop everything up to and including the first `'@'`. -/
def dropThroughAt : List Char → List Char
  | [] => []
  | c :: r => if c = '@' then r else dropThroughAt r

/-- JS `key.replace(/\+.*?@/, '@')`: replace the first (lazy) match of
`\+.*?@` — the first `'+'` from which an `'@'` is reachable without an
intervening CR/LF, through that first `'@'` — by a single `'@'`. -/
def stripPlusSeg : List Char → List Char
  | [] => []
  | c :: r =>
    if c = '+' ∧ hasAtBeforeNl r then '@' :: dropThroughAt r
    else c :: stripPlusSeg r

/-! ## Address Router (`transformRecipients`) -/

/-- `origEmailKey`: the lowercased address, with the `+suffix` segment
stripped when `allowPlusSign` is enabled. -/
def lookupKey (cfg : ForwarderConfig) (origEmail : String) : List Char :=
  let k := jsLower origEmail.data
  if cfg.allowPlusSign then stripPlusSeg k else k

/-- `CONFIG.forwardMapping.hasOwnProperty(k)`. -/
def hasMapping (m : List (String × List String)) (k : String) : Bool :=
  (List.lookup k m).isSome

/-- `origEmailDomain`: the slice of the key from its last `'@'` (inclusive);
`none` when the key has no `'@'` (JS leaves the variable `undefined`). -/
def domainKeyOf (key : List Char) : Option (List Char) :=
  match lastIdxOf '@' key with
  | none => none
  | some p => some (key.drop p)

/-- `origEmailUser`: the slice of the key before its last `'@'`, or the whole
key when there is no `'@'`. -/
def userKeyOf (key : List Char) : List Char :=
  match lastIdxOf '@' key with
  | none => key
  | some p => key.take p

/-- The four-tier lookup performed for one recipient key: exact key, then
`origEmailDomain && hasOwnProperty(domain)`, then
`origEmailUser && hasOwnProperty(user)`, then the catch-all key `"@"`.
Returns `none` when no tier matches (nothing is contributed). -/
def destsForKey (m : List (String × List String)) (key : List Char) : Option (List String) :=
  match List.lookup (String.mk key) m with
  | some ds => some ds
  | none =>
    match domainKeyOf key with
    | some d =>
      if d.isEmpty = false ∧ hasMapping m (String.mk d) = true then
        List.lookup (String.mk d) m
      else if (userKeyOf key).isEmpty = false ∧ hasMapping m (String.mk (userKeyOf key)) = true then
        List.lookup (String.mk (userKeyOf key)) m
      else
        List.lookup "@" m
    | none =>
      if (userKeyOf key).isEmpty = false ∧ hasMapping m (String.mk (userKeyOf key)) = true then
        List.lookup (String.mk (userKeyOf key)) m
      else
        List.lookup "@" m

/-- What one original recipient contributes: the tier lookup applied to its
lookup key. -/
def recipientDests (cfg : ForwarderConfig) (origEmail : String) : Option (List String) :=
  destsForKey cfg.forwardMapping (lookupKey cfg origEmail)

/-- `{ original: string, recipients: string[] }`. -/
structure RecipientsResult where
  original : String
  recipients : List String
deriving DecidableEq, Repr

/-- One iteration of the `forEach` loop: on a match, `original` is set to the
raw address and the destinations are appended to the accumulator. -/
def resolveStep (cfg : ForwarderConfig) (acc : String × List String) (origEmail : String) :
    String × List String :=
  match recipientDests cfg origEmail with
  | some ds => (origEmail, acc.2 ++ ds)
  | none => acc

/-- `transformRecipients`: fold the loop over the original recipients; if no
destinations were accumulated, fall back to the original recipient list. -/
def transformRecipients (cfg : ForwarderConfig) (originalRecipients : List String) :
    RecipientsResult :=
  let st := originalRecipients.foldl (resolveStep cfg) ("", [])
  if st.2.isEmpty then ⟨st.1, originalRecipients⟩ else ⟨st.1, st.2⟩

/-- The concatenation, in input order, of the destination lists of the
matching recipients (a non-matching recipient contributes nothing). -/
def matchedConcat (cfg : ForwarderConfig) : List String → List String
  | [] => []
  | r :: rs => ((recipientDests cfg r).getD []) ++ matchedConcat cfg rs

/-! ## Header Rewriter (`processMessage`)

The split of the raw message into header block and body follows the JS
regex `messageBody.match(/^((?:.+\r?\n)*)(\r?\n(?:.*\s+)*)/m)` exactly:
JS `.` matches neither `\r` nor `\n`, the `m` flag lets `^` anchor at the
start of the string or right after any `\n`, and the engine returns the
match at the leftmost such anchor. -/

/-- JS `\s` (whitespace class), restricted to the ASCII members. -/
def jsWs (c : Char) : Bool :=
  c = ' ' ∨ c = '\t' ∨ c = '\n' ∨ c = '\r' ∨ c = '\x0b' ∨ c = '\x0c'

/-- A character the JS `.` can match (neither CR nor LF). -/
def notCRLF (c : Char) : Bool := ¬ (c = '\r' ∨ c = '\n')

/-- One iteration of `(?:.+\r?\n)`: a nonempty CR/LF-free run followed by
`\r\n` or `\n`.  Returns the consumed text and the rest, or `none` when the
iteration cannot match here. -/
def takeLine (cs : List Char) : Option (List Char × List Char) :=
  let run := cs.takeWhile notCRLF
  let rest := cs.drop run.length
  if run.isEmpty then none
  else
    match rest with
    | '\r' :: '\n' :: r => some (run ++ ['\r', '\n'], r)
    | '\n' :: r => some (run ++ ['\n'], r)
    | _ => none

/-- Greedy `(?:.+\r?\n)*` (fuelled; the fuel is always sufficient since each
iteration consumes at least two characters). -/
def munchLinesF : Nat → List Char → List Char × List Char
  | 0, cs => ([], cs)
  | fuel + 1, cs =>
    match takeLine cs with
    | some lr =>
      let p := munchLinesF fuel lr.2
      (lr.1 ++ p.1, p.2)
    | none => ([], cs)

/-- Greedy `(?:.+\r?\n)*`: the consumed full lines and the rest. -/
def munchLines (cs : List Char) : List Char × List Char := munchLinesF cs.length cs

/-- Greedy `(?:.*\s+)*` on `r`: the prefix of `r` up to and including its
last whitespace character (empty when `r` has no whitespace). -/
def bodyKeep (r : List Char) : List Char :=
  (r.reverse.dropWhile (fun c => ¬ jsWs c = true)).reverse

/-- Attempt the full regex at one anchor: group 1 is the run of nonempty
lines, which must be followed immediately by a blank line `\r?\n`; group 2
is that blank line plus whatever `(?:.*\s+)*` consumes. -/
def matchAt (cs : List Char) : Option (List Char × List Char) :=
  let p := munchLines cs
  match p.2 with
  | '\r' :: '\n' :: r => some (p.1, '\r' :: '\n' :: bodyKeep r)
  | '\n' :: r => some (p.1, '\n' :: bodyKeep r)
  | _ => none

/-- The suffix after the first `'\n'`, `none` when there is none (used to
advance to the next `^` anchor of the `m`-flagged regex). -/
def afterFirstNl : List Char → Option (List Char)
  | [] => none
  | '\n' :: r => some r
  | _ :: r => afterFirstNl r

/-- Try the regex at each anchor (start of string, then after each `\n`),
returning the first match (fuelled; the fuel is always sufficient). -/
def findMatchF : Nat → List Char → Option (List Char × List Char)
  | 0, _ => none
  | fuel + 1, cs =>
    match matchAt cs with
    | some g => some g
    | none =>
      match afterFirstNl cs with
      | some r => findMatchF fuel r
      | none => none

/-- The first match of `/^((?:.+\r?\n)*)(\r?\n(?:.*\s+)*)/m`, as
`(group1, group2)`. -/
def findMatch (cs : List Char) : Option (List Char × List Char) :=
  findMatchF (cs.length + 1) cs

/-- `header`/`body` of `processMessage`: on a match, `header` is group 1
unless that group is empty (JS falsiness), in which case the whole message;
`body` is group 2 (likewise under JS falsiness); with no match, the whole
message and the empty string. -/
def splitHeaderBody (msg : List Char) : List Char × List Char :=
  match findMatch msg with
  | some g => (if g.1.isEmpty then msg else g.1, if g.2.isEmpty then [] else g.2)
  | none => (msg, [])

/-- JS `header.split(/\r?\n/)`. -/
def splitLines : List Char → List (List Char)
  | [] => [[]]
  | '\r' :: '\n' :: r => [] :: splitLines r
  | '\n' :: r => [] :: splitLines r
  | c :: r =>
    match splitLines r with
    | [] => [[c]]
    | l :: ls => (c :: l) :: ls

/-- JS `line.trim() !== ''`: the line has some non-whitespace character. -/
def nonBlank (l : List Char) : Bool := l.any (fun c => ¬ jsWs c = true)

/-- Case-insensitive `^name` test (`p` is given in lowercase). -/
def startsWithCI (p : String) (line : List Char) : Bool :=
  p.data.isPrefixOf (jsLower line)

def isReplyToLine (l : List Char) : Bool := startsWithCI "reply-to:" l
def isFromLine (l : List Char) : Bool := startsWithCI "from:" l
def isToLine (l : List Char) : Bool := startsWithCI "to:" l
def isSubjectLine (l : List Char) : Bool := startsWithCI "subject:" l

/-- The removal test
`/^(return-path|sender|message-id|dkim-signature):/i.test(line)`. -/
def isRemovedLine (l : List Char) : Bool :=
  startsWithCI "return-path:" l || startsWithCI "sender:" l ||
    startsWithCI "message-id:" l || startsWithCI "dkim-signature:" l

/-- `line.replace(/^name:[\t ]?(.*)/i, '$1')`: drop the `n`-character header
name and at most one following tab or space. -/
def afterHeaderName (n : Nat) (line : List Char) : List Char :=
  match line.drop n with
  | c :: rest => if c = ' ' ∨ c = '\t' then rest else c :: rest
  | [] => []

/-- JS `s.replace(/<(.*)>/, '')`: remove the first match — from the first
`'<'` whose following CR/LF-free run contains a `'>'`, through the last
`'>'` of that run (greedy `.*` with backtracking). -/
def replaceAngleF : List Char → List Char
  | [] => []
  | '<' :: r =>
    let run := r.takeWhile notCRLF
    match lastIdxOf '>' run with
    | some j => r.drop (j + 1)
    | none => '<' :: replaceAngleF r
  | c :: r => c :: replaceAngleF r

/-- JS `s.replace('<', 'at ')` (first occurrence only). -/
def replaceFirstLt : List Char → List Char
  | [] => []
  | '<' :: r => 'a' :: 't' :: ' ' :: r
  | c :: r => c :: replaceFirstLt r

/-- JS `s.replace('>', '')` (first occurrence only). -/
def removeFirstGt : List Char → List Char
  | [] => []
  | '>' :: r => r
  | c :: r => c :: removeFirstGt r

/-- JS `String.prototype.trim` (ASCII whitespace). -/
def jsTrim (cs : List Char) : List Char :=
  ((cs.dropWhile (fun c => jsWs c = true)).reverse.dropWhile (fun c => jsWs c = true)).reverse

/-- The rewritten `From` header pushed for a `from:` line: with a configured
`fromEmail`, `` `From: ${fromAddress.replace(/<(.*)>/, '').trim()} <${CONFIG.fromEmail}>` ``;
otherwise `` `From: ${fromAddress.replace('<', 'at ').replace('>', '')} <${originalRecipient}>` ``. -/
def newFromLine (cfg : ForwarderConfig) (originalRecipient : String) (line : List Char) :
    List Char :=
  let fromAddress := afterHeaderName 5 line
  if cfg.fromEmail ≠ "" then
    "From: ".data ++ jsTrim (replaceAngleF fromAddress) ++ " <".data ++ cfg.fromEmail.data ++ ['>']
  else
    "From: ".data ++ removeFirstGt (replaceFirstLt fromAddress) ++ " <".data ++
      originalRecipient.data ++ ['>']

/-- `` `To: ${updatedRecipients.join(', ')}` ``. -/
def toLineOf (updatedRecipients : List String) : List Char :=
  "To: ".data ++ (List.intercalate ", ".data (updatedRecipients.map String.data))

/-- `` line.replace(/^subject:[\t ]?(.*)/i, `Subject: ${CONFIG.subjectPrefix}$1`) ``. -/
def subjectLineOf (cfg : ForwarderConfig) (line : List Char) : List Char :=
  "Subject: ".data ++ cfg.subjectPrefixVal.data ++ afterHeaderName 8 line

/-- `` `Reply-To: ${x}` ``. -/
def replyToLineOf (x : List Char) : List Char := "Reply-To: ".data ++ x

/-- The header-line loop of `processMessage`: processes the lines in order,
threading `hasReplyTo` and `fromAddress`, and returns the pushed lines
together with the final values of the two variables. -/
def rewriteLines (cfg : ForwarderConfig) (origRcpt : String) (updRcpts : List String) :
    List (List Char) → Bool → List Char → List (List Char) × Bool × List Char
  | [], hasRT, fromA => ([], hasRT, fromA)
  | line :: ls, hasRT, fromA =>
    if isReplyToLine line then
      let p := rewriteLines cfg origRcpt updRcpts ls true fromA
      (line :: p.1, p.2)
    else if isFromLine line then
      let p := rewriteLines cfg origRcpt updRcpts ls hasRT (afterHeaderName 5 line)
      (newFromLine cfg origRcpt line :: p.1, p.2)
    else if isToLine line then
      let p := rewriteLines cfg origRcpt updRcpts ls hasRT fromA
      (toLineOf updRcpts :: p.1, p.2)
    else if isSubjectLine line ∧ cfg.subjectPrefixVal ≠ "" then
      let p := rewriteLines cfg origRcpt updRcpts ls hasRT fromA
      (subjectLineOf cfg line :: p.1, p.2)
    else if isRemovedLine line = false then
      let p := rewriteLines cfg origRcpt updRcpts ls hasRT fromA
      (line :: p.1, p.2)
    else
      rewriteLines cfg origRcpt updRcpts ls hasRT fromA

/-- The filtered header lines handed to the loop. -/
def headerLinesOf (header : List Char) : List (List Char) :=
  (splitLines header).filter nonBlank

/-- The footer appended to the body:
`` `\r\n\r\n---\r\nForwarded by ${CONFIG.fromEmail}. Reply to: ${fromAddress || originalRecipient}` ``. -/
def footerOf (cfg : ForwarderConfig) (origRcpt : String) (fromA : List Char) : List Char :=
  "\r\n\r\n---\r\nForwarded by ".data ++ cfg.fromEmail.data ++ ". Reply to: ".data ++
    (if fromA.isEmpty then origRcpt.data else fromA)

/-- `processMessage`, split into its final header-line list and its final
body (the returned string is the lines joined by CRLF, a blank line, then
the body). -/
def processMessageParts (cfg : ForwarderConfig) (originalRecipient : String)
    (messageBody : List Char) (updatedRecipients : List String) :
    List (List Char) × List Char :=
  let hb := splitHeaderBody messageBody
  let t := rewriteLines cfg originalRecipient updatedRecipients (headerLinesOf hb.1) false []
  let headers :=
    if t.2.1 = false ∧ t.2.2.isEmpty = false then t.1 ++ [replyToLineOf t.2.2]
    else if t.2.1 = false then t.1 ++ [replyToLineOf originalRecipient.data]
    else t.1
  (headers, hb.2 ++ footerOf cfg originalRecipient t.2.2)

/-- `processMessage`: the rewritten raw message. -/
def processMessage (cfg : ForwarderConfig) (originalRecipient : String)
    (messageBody : String) (updatedRecipients : List String) : String :=
  let p := processMessageParts cfg originalRecipient messageBody.data updatedRecipients
  String.mk (List.intercalate "\r\n".data p.1 ++ "\r\n\r\n".data ++ p.2)

/-- The header lines of the input message, as the loop receives them. -/
def inputHeaderLines (msg : List Char) : List (List Char) :=
  headerLinesOf (splitHeaderBody msg).1

/-- The header lines of the rewritten message. -/
def outputHeaderLines (cfg : ForwarderConfig) (originalRecipient : String)
    (messageBody : List Char) (updatedRecipients : List String) : List (List Char) :=
  (processMessageParts cfg originalRecipient messageBody updatedRecipients).1

/-- Number of lines satisfying `p`. -/
def cntLines (p : List Char → Bool) (ls : List (List Char)) : Nat :=
  (ls.filter p).length

/-! ## Message Sender (`sendMessage`) -/

/-- The `SendRawEmailCommandInput` the sender builds. -/
structure SendRawEmailParams where
  Destinations : List String
  Source : String
  RawMessageData : String
deriving DecidableEq, Repr

/-- The parameters `sendMessage` passes to `ses.send`: the destinations are
the updated recipients, the source is `CONFIG.fromEmail`, the raw message is
the (rewritten) message body.  The `originalRecipient` argument is accepted
but not used in the parameters. -/
def sendParams (cfg : ForwarderConfig) (originalRecipient : String)
    (updatedRecipients : List String) (messageBody : String) : SendRawEmailParams :=
  let _ := originalRecipient
  { Destinations := updatedRecipients
    Source := cfg.fromEmail
    RawMessageData := messageBody }

/-! ## Event Handler / Orchestrator -/

/-- `SESReceiptStatus`. -/
structure SESReceiptStatusV where
  status : String
deriving DecidableEq, Repr

/-- The receipt part of an SES message (verdicts absent in the payload are
`none`). -/
structure SESReceiptV where
  recipients : List String
  spamVerdict : Option SESReceiptStatusV
  virusVerdict : Option SESReceiptStatusV
  spfVerdict : Option SESReceiptStatusV
  dkimVerdict : Option SESReceiptStatusV
  dmarcVerdict : Option SESReceiptStatusV
deriving DecidableEq, Repr

/-- The mail part of an SES message (only the fields the handler reads). -/
structure SESMailV where
  messageId : String
deriving DecidableEq, Repr

structure SESMessageV where
  mail : SESMailV
  receipt : SESReceiptV
deriving DecidableEq, Repr

structure SESRecordV where
  eventSource : String
  eventVersion : String
  ses : SESMessageV
deriving DecidableEq, Repr

structure SESEventV where
  Records : List SESRecordV
deriving DecidableEq, Repr

/-- A JS value thrown by some stage of the pipeline. -/
inductive JsThrow where
  | errMsg (m : String)
  | boolFalse
  | assertFail (m : String)
  | discordFail
deriving DecidableEq, Repr

/-- What the external world would answer: the `BUCKET` environment variable,
the result of the S3 fetch (`none` models any retrieval failure, which
`fetchMessage` catches and turns into `null`), whether the Discord webhook
request succeeds, and whether `ses.send` succeeds. -/
structure EnvModel where
  bucket : String
  s3Result : Option String
  discordOk : Bool
  sesSendOk : Bool
deriving DecidableEq, Repr

/-- `parseEvent`: exactly one record with `eventSource === 'aws:ses'` and
`eventVersion === '1.0'`; otherwise a thrown `Error`. -/
def parseEvent (ev : SESEventV) : Except JsThrow SESMessageV :=
  match ev.Records with
  | [r] =>
    if r.eventSource = "aws:ses" ∧ r.eventVersion = "1.0" then Except.ok r.ses
    else Except.error (JsThrow.errMsg "Error: Received invalid SES message.")
  | _ => Except.error (JsThrow.errMsg "Error: Received invalid SES message.")

/-- `sendDiscordMessage`: only acts when a webhook URL is configured; a
failed request is logged and rethrown. -/
def sendDiscordMessage (cfg : ForwarderConfig) (discordOk : Bool) : Except JsThrow Unit :=
  if (cfg.discordWebhookUrl.getD "").length > 0 then
    if discordOk then Except.ok () else Except.error JsThrow.discordFail
  else Except.ok ()

/-- Does one (possibly absent) verdict have `status === 'FAIL'`? -/
def verdictFails (v : Option SESReceiptStatusV) : Bool :=
  match v with
  | some s => s.status = "FAIL"
  | none => false

/-- Any of the five verdicts `FAIL`? (checked in the source's order). -/
def anyVerdictFails (r : SESReceiptV) : Bool :=
  verdictFails r.spamVerdict ∨ verdictFails r.virusVerdict ∨ verdictFails r.spfVerdict ∨
    verdictFails r.dkimVerdict ∨ verdictFails r.dmarcVerdict

/-- `filterSpam`: when `rejectSpam` is set and some verdict is `FAIL`, the
sentinel `false` is thrown; otherwise `true` is returned. -/
def filterSpam (cfg : ForwarderConfig) (m : SESMessageV) : Except JsThrow Bool :=
  if cfg.rejectSpam = true then
    if anyVerdictFails m.receipt then Except.error JsThrow.boolFalse else Except.ok true
  else Except.ok true

/-- Which external calls the invocation performed. -/
structure StepFlags where
  fetchInvoked : Bool
  sendInvoked : Bool
deriving DecidableEq, Repr

/-- The body of the handler's `try` block, in source order: validate, notify
Discord, resolve recipients, filter spam, fetch from S3 (the `assert` on the
bucket name throws before `s3.send`), assert the body, rewrite, send.
Returns the flags together with the thrown value, if any. -/
def handlerBody (cfg : ForwarderConfig) (env : EnvModel) (ev : SESEventV) :
    StepFlags × Except JsThrow Unit :=
  match parseEvent ev with
  | Except.error e => (⟨false, false⟩, Except.error e)
  | Except.ok message =>
    match sendDiscordMessage cfg env.discordOk with
    | Except.error e => (⟨false, false⟩, Except.error e)
    | Except.ok _ =>
      let rr := transformRecipients cfg message.receipt.recipients
      match filterSpam cfg message with
      | Except.error e => (⟨false, false⟩, Except.error e)
      | Except.ok _ =>
        if env.bucket = "" then
          (⟨false, false⟩, Except.error (JsThrow.assertFail "Bucket is not defined"))
        else
          match env.s3Result with
          | none => (⟨true, false⟩, Except.error (JsThrow.assertFail "Message body is not defined"))
          | some mb =>
            if mb = "" then
              (⟨true, false⟩, Except.error (JsThrow.assertFail "Message body is not defined"))
            else
              let _updated := processMessage cfg rr.original mb rr.recipients
              if env.sesSendOk then (⟨true, true⟩, Except.ok ())
              else (⟨true, true⟩, Except.error (JsThrow.errMsg "Error: Email sending failed."))

/-- How the invocation ended, as reported in the logs. -/
inductive Outcome where
  | success
  | spamRejected
  | genericError
deriving DecidableEq, Repr

structure HandlerTrace where
  flags : StepFlags
  outcome : Outcome
deriving DecidableEq, Repr

/-- The exported `handler`: the `try` body wrapped in the `catch` block,
which distinguishes the thrown sentinel `false` (spam rejection, logged as
info) from every other thrown value (logged as an error) and returns
normally in every case.  An `Except.error` result would model a value
propagating out of the handler to the runtime. -/
def handler (cfg : ForwarderConfig) (env : EnvModel) (ev : SESEventV) :
    Except JsThrow HandlerTrace :=
  match handlerBody cfg env ev with
  | (f, Except.ok _) => Except.ok ⟨f, Outcome.success⟩
  | (f, Except.error JsThrow.boolFalse) => Except.ok ⟨f, Outcome.spamRejected⟩
  | (f, Except.error _) => Except.ok ⟨f, Outcome.genericError⟩

/-! ## Support lemmas: Address Router -/

lemma lastIdxOf_lt_length {c : Char} :
    ∀ {cs : List Char} {i : Nat}, lastIdxOf c cs = some i → i < cs.length := by
  intro cs
  induction cs with
  | nil => intro i h; simp [lastIdxOf] at h
  | cons a r ih =>
    intro i h
    unfold lastIdxOf at h
    cases hr : lastIdxOf c r with
    | some j =>
      rw [hr] at h
      cases h
      exact Nat.succ_lt_succ (ih hr)
    | none =>
      rw [hr] at h
      by_cases ha : a = c
      · simp [ha] at h
        simp [← h]
      · simp [ha] at h

lemma domainKeyOf_ne_nil {key d : List Char} (h : domainKeyOf key = some d) :
    d.isEmpty = false := by
  unfold domainKeyOf at h
  cases hp : lastIdxOf '@' key with
  | none => rw [hp] at h; cases h
  | some p =>
    rw [hp] at h
    cases h
    have hlt := lastIdxOf_lt_length hp
    have : ¬ (List.drop p key = []) := by
      rw [List.drop_eq_nil_iff]
      omega
    simpa [List.isEmpty_iff] using this

lemma hasMapping_false_iff {m : List (String × List String)} {k : String} :
    hasMapping m k = false ↔ List.lookup k m = none := by
  unfold hasMapping
  cases h : List.lookup k m <;> simp [h]

/-- Claim C1 (amended): the per-recipient lookup tries the tiers in the
fixed order exact full address, domain (`@domain`), user (local part),
catch-all (`@`), and contributes the first matching tier's list — with the
provisos visible in the code's truthiness guards: the domain tier requires
the key to contain `'@'`, and the user tier is skipped when the local part
is the empty string. -/
theorem router_tier_precedence (cfg : ForwarderConfig) (r : String) :
    (hasMapping cfg.forwardMapping (String.mk (lookupKey cfg r)) = true →
      recipientDests cfg r = List.lookup (String.mk (lookupKey cfg r)) cfg.forwardMapping)
    ∧ (∀ d, hasMapping cfg.forwardMapping (String.mk (lookupKey cfg r)) = false →
        domainKeyOf (lookupKey cfg r) = some d →
        hasMapping cfg.forwardMapping (String.mk d) = true →
        recipientDests cfg r = List.lookup (String.mk d) cfg.forwardMapping)
    ∧ (hasMapping cfg.forwardMapping (String.mk (lookupKey cfg r)) = false →
        (∀ d, domainKeyOf (lookupKey cfg r) = some d →
          hasMapping cfg.forwardMapping (String.mk d) = false) →
        (userKeyOf (lookupKey cfg r)).isEmpty = false →
        hasMapping cfg.forwardMapping (String.mk (userKeyOf (lookupKey cfg r))) = true →
        recipientDests cfg r =
          List.lookup (String.mk (userKeyOf (lookupKey cfg r))) cfg.forwardMapping)
    ∧ (hasMapping cfg.forwardMapping (String.mk (lookupKey cfg r)) = false →
        (∀ d, domainKeyOf (lookupKey cfg r) = some d →
          hasMapping cfg.forwardMapping (String.mk d) = false) →
        ((userKeyOf (lookupKey cfg r)).isEmpty = true ∨
          hasMapping cfg.forwardMapping (String.mk (userKeyOf (lookupKey cfg r))) = false) →
        recipientDests cfg r = List.lookup "@" cfg.forwardMapping) := by
  unfold recipientDests destsForKey
  refine ⟨?_, ?_, ?_, ?_⟩
  · intro hx
    rcases Option.isSome_iff_exists.mp hx with ⟨ds, hds⟩
    simp [hds]
  · intro d hx hd hmd
    rw [hasMapping_false_iff.mp hx, hd]
    simp [domainKeyOf_ne_nil hd, hmd]
  · intro hx hdfail hu hmu
    rw [hasMapping_false_iff.mp hx]
    cases hd : domainKeyOf (lookupKey cfg r) with
    | none => simp [hu, hmu]
    | some d => simp [hdfail d hd, hu, hmu]
  · intro hx hdfail hu
    rw [hasMapping_false_iff.mp hx]
    cases hd : domainKeyOf (lookupKey cfg r) with
    | none =>
      rcases hu with hu | hu <;> simp [hu]
    | some d =>
      rcases hu with hu | hu <;> simp [hdfail d hd, hu]

/-- Witness for `router_tier_precedence`: with all four tiers populated for
`sales@example.com`, the exact tier wins. -/
theorem router_tier_precedence_witness :
    recipientDests
      ⟨"noreply@example.com", "", "",
        [("sales@example.com", ["exact@x"]), ("@example.com", ["domain@x"]),
          ("sales", ["user@x"]), ("@", ["catch@x"])], true, true, none⟩
      "sales@example.com" = some ["exact@x"] := by
  rw [(router_tier_precedence
    ⟨"noreply@example.com", "", "",
      [("sales@example.com", ["exact@x"]), ("@example.com", ["domain@x"]),
        ("sales", ["user@x"]), ("@", ["catch@x"])], true, true, none⟩
    "sales@example.com").1 (by decide)]
  decide

/-- Counterexample to claim C1 as stated: for the address `"@d"` the
user-tier key (the empty local part) is present in the mapping, the domain
tier does not match, yet the catch-all list — not the user-tier list — is
contributed, because the code skips a falsy (empty) user key. -/
theorem router_empty_user_key_cex :
    (userKeyOf (lookupKey
        ⟨"noreply@example.com", "", "", [("", ["user-tier@x"]), ("@", ["catch-all@x"])],
          true, true, none⟩ "@d") = []
      ∧ hasMapping [("", ["user-tier@x"]), ("@", ["catch-all@x"])] "" = true)
    ∧ recipientDests
        ⟨"noreply@example.com", "", "", [("", ["user-tier@x"]), ("@", ["catch-all@x"])],
          true, true, none⟩ "@d" = some ["catch-all@x"]
    ∧ (["catch-all@x"] : List String) ≠ ["user-tier@x"] := by
  exact ⟨by decide, by decide, by decide⟩

/-! ## Support lemmas: plus-sign stripping (claim C2) -/

/-- A character that is neither `'@'` nor CR/LF. -/
def plainChar (c : Char) : Prop := c ≠ '@' ∧ c ≠ '\r' ∧ c ≠ '\n'

instance (c : Char) : Decidable (plainChar c) := by
  unfold plainChar
  infer_instance

lemma hasAtBeforeNl_append {u : List Char} (hu : ∀ c ∈ u, plainChar c) (v : List Char) :
    hasAtBeforeNl (u ++ v) = hasAtBeforeNl v := by
  induction u with
  | nil => rfl
  | cons a r ih =>
    have ha := hu a (by simp)
    have hr : ∀ c ∈ r, plainChar c := fun c hc => hu c (by simp [hc])
    simp [hasAtBeforeNl, ha.1, ha.2.1, ha.2.2, ih hr]

lemma dropThroughAt_append {u : List Char} (hu : ∀ c ∈ u, c ≠ '@') (w : List Char) :
    dropThroughAt (u ++ '@' :: w) = w := by
  induction u with
  | nil => simp [dropThroughAt]
  | cons a r ih =>
    have ha := hu a (by simp)
    have hr : ∀ c ∈ r, c ≠ '@' := fun c hc => hu c (by simp [hc])
    simp [dropThroughAt, ha, ih hr]

lemma stripPlusSeg_of_no_plus {w : List Char} (hw : ∀ c ∈ w, c ≠ '+') :
    stripPlusSeg w = w := by
  induction w with
  | nil => rfl
  | cons a r ih =>
    have ha := hw a (by simp)
    have hr : ∀ c ∈ r, c ≠ '+' := fun c hc => hw c (by simp [hc])
    simp [stripPlusSeg, ha, ih hr]

lemma stripPlusSeg_key_eq {u v w : List Char} (hu : ∀ c ∈ u, plainChar c)
    (hv : ∀ c ∈ v, plainChar c) (hw : ∀ c ∈ w, c ≠ '+') :
    stripPlusSeg (u ++ '+' :: (v ++ '@' :: w)) = stripPlusSeg (u ++ '@' :: w) := by
  induction u with
  | nil =>
    have h1 : hasAtBeforeNl (v ++ '@' :: w) = true := by
      rw [hasAtBeforeNl_append hv]
      simp [hasAtBeforeNl]
    have h2 : dropThroughAt (v ++ '@' :: w) = w :=
      dropThroughAt_append (fun c hc => (hv c hc).1) w
    simp [stripPlusSeg, h1, h2, stripPlusSeg_of_no_plus hw]
  | cons a r ih =>
    have ha := hu a (by simp)
    have hr : ∀ c ∈ r, plainChar c := fun c hc => hu c (by simp [hc])
    by_cases hp : a = '+'
    · subst hp
      have h1 : hasAtBeforeNl (r ++ '+' :: (v ++ '@' :: w)) = true := by
        rw [hasAtBeforeNl_append hr]
        have : hasAtBeforeNl (v ++ '@' :: w) = true := by
          rw [hasAtBeforeNl_append hv]; simp [hasAtBeforeNl]
        simpa [hasAtBeforeNl] using this
      have h2 : hasAtBeforeNl (r ++ '@' :: w) = true := by
        rw [hasAtBeforeNl_append hr]; simp [hasAtBeforeNl]
      have h3 : dropThroughAt (r ++ '+' :: (v ++ '@' :: w)) = w := by
        have : (r ++ '+' :: v) ++ '@' :: w = r ++ '+' :: (v ++ '@' :: w) := by simp
        rw [← this]
        exact dropThroughAt_append
          (by
            intro c hc
            rcases List.mem_append.mp hc with hc | hc
            · exact (hr c hc).1
            · rcases List.mem_cons.mp hc with hc | hc
              · subst hc; decide
              · exact (hv c hc).1) w
      have h4 : dropThroughAt (r ++ '@' :: w) = w :=
        dropThroughAt_append (fun c hc => (hr c hc).1) w
      simp [stripPlusSeg, h1, h2, h3, h4]
    · simp [stripPlusSeg, hp, ih hr]

lemma jsLower_append (u v : List Char) : jsLower (u ++ v) = jsLower u ++ jsLower v :=
  List.map_append _ _ _

/-- Claim C2 (amended): when `allowPlusSign` is enabled and the local part
`a` and suffix `x` lowercase to CR/LF-free, `'@'`-free text and the domain
`d` lowercases without `'+'`, the addresses `a+x@d` and `a@d` produce the
same lookup key and hence the same tier match; the `recipients` field of
`transformRecipients` agrees on the two one-element inputs whenever the
match yields a nonempty destination list.  (The `original` field keeps the
raw input address, so the full results differ — see the counterexample.) -/
theorem plus_suffix_key_equiv (cfg : ForwarderConfig) (a x d : List Char)
    (ha : ∀ c ∈ jsLower a, plainChar c) (hx : ∀ c ∈ jsLower x, plainChar c)
    (hd : ∀ c ∈ jsLower d, c ≠ '+') (hplus : cfg.allowPlusSign = true) :
    lookupKey cfg (String.mk (a ++ '+' :: (x ++ '@' :: d))) =
      lookupKey cfg (String.mk (a ++ '@' :: d))
    ∧ recipientDests cfg (String.mk (a ++ '+' :: (x ++ '@' :: d))) =
        recipientDests cfg (String.mk (a ++ '@' :: d))
    ∧ (∀ ds, recipientDests cfg (String.mk (a ++ '@' :: d)) = some ds → ds ≠ [] →
        (transformRecipients cfg [String.mk (a ++ '+' :: (x ++ '@' :: d))]).recipients =
          (transformRecipients cfg [String.mk (a ++ '@' :: d)]).recipients) := by
  have c1 : Char.toLower '+' = '+' := by decide
  have c2 : Char.toLower '@' = '@' := by decide
  have e1 : jsLower (a ++ '+' :: (x ++ '@' :: d)) =
      jsLower a ++ '+' :: (jsLower x ++ '@' :: jsLower d) := by
    simp [jsLower, c1, c2]
  have e2 : jsLower (a ++ '@' :: d) = jsLower a ++ '@' :: jsLower d := by
    simp [jsLower, c2]
  have hkey : lookupKey cfg (String.mk (a ++ '+' :: (x ++ '@' :: d))) =
      lookupKey cfg (String.mk (a ++ '@' :: d)) := by
    show (if cfg.allowPlusSign then stripPlusSeg (jsLower (a ++ '+' :: (x ++ '@' :: d)))
        else jsLower (a ++ '+' :: (x ++ '@' :: d))) =
      (if cfg.allowPlusSign then stripPlusSeg (jsLower (a ++ '@' :: d))
        else jsLower (a ++ '@' :: d))
    rw [hplus]
    simp only [if_true]
    rw [e1, e2]
    exact stripPlusSeg_key_eq ha hx hd
  have hdest : recipientDests cfg (String.mk (a ++ '+' :: (x ++ '@' :: d))) =
      recipientDests cfg (String.mk (a ++ '@' :: d)) := by
    unfold recipientDests
    rw [hkey]
  refine ⟨hkey, hdest, ?_⟩
  intro ds hds hne
  unfold transformRecipients
  simp [List.foldl, resolveStep, hdest, hds, List.isEmpty_iff, hne]

/-- Witness for `plus_suffix_key_equiv` at `user`/`tag`/`example.com`. -/
theorem plus_suffix_key_equiv_witness :
    (transformRecipients
        ⟨"noreply@example.com", "", "", [("user@example.com", ["owner@gmail.com"])],
          true, true, none⟩
        [String.mk ("user".data ++ '+' :: ("tag".data ++ '@' :: "example.com".data))]).recipients =
      (transformRecipients
        ⟨"noreply@example.com", "", "", [("user@example.com", ["owner@gmail.com"])],
          true, true, none⟩
        [String.mk ("user".data ++ '@' :: "example.com".data)]).recipients :=
  (plus_suffix_key_equiv
      ⟨"noreply@example.com", "", "", [("user@example.com", ["owner@gmail.com"])],
        true, true, none⟩
      "user".data "tag".data "example.com".data
      (by decide) (by decide) (by decide) (by decide)).2.2
    ["owner@gmail.com"] (by decide) (by decide)

/-- Counterexample to claim C2 as stated: the two resolutions are *not*
equal as `RecipientsResult`s — the `original` field records the raw input
address, suffix included. -/
theorem plus_suffix_result_cex :
    transformRecipients
        ⟨"noreply@example.com", "", "", [("user@example.com", ["owner@gmail.com"])],
          true, true, none⟩ ["user+tag@example.com"] ≠
      transformRecipients
        ⟨"noreply@example.com", "", "", [("user@example.com", ["owner@gmail.com"])],
          true, true, none⟩ ["user@example.com"] := by
  decide

/-! ## Support lemmas: the recipients fold (claims C3, C10) -/

lemma foldl_resolveStep_snd (cfg : ForwarderConfig) :
    ∀ (rs : List String) (o : String) (acc : List String),
      (rs.foldl (resolveStep cfg) (o, acc)).2 = acc ++ matchedConcat cfg rs := by
  intro rs
  induction rs with
  | nil => intro o acc; simp [matchedConcat]
  | cons r rest ih =>
    intro o acc
    simp only [List.foldl_cons]
    cases h : recipientDests cfg r with
    | none => simp [resolveStep, h, ih, matchedConcat]
    | some ds => simp [resolveStep, h, ih, matchedConcat]

lemma getLastD_cons {α : Type} (a d : α) (l : List α) :
    ((a :: l).getLast?).getD d = (l.getLast?).getD a := by
  cases l with
  | nil => simp
  | cons b r =>
    rw [List.getLast?_cons_cons]
    cases hr : (b :: r).getLast? with
    | none => simp [List.getLast?_eq_none_iff] at hr
    | some x => simp [hr]

lemma foldl_resolveStep_fst (cfg : ForwarderConfig) :
    ∀ (rs : List String) (o : String) (acc : List String),
      (rs.foldl (resolveStep cfg) (o, acc)).1 =
        ((rs.filter (fun r => (recipientDests cfg r).isSome)).getLast?).getD o := by
  intro rs
  induction rs with
  | nil => intro o acc; simp
  | cons r rest ih =>
    intro o acc
    simp only [List.foldl_cons]
    cases h : recipientDests cfg r with
    | none => simp [resolveStep, h, ih, List.filter_cons]
    | some ds =>
      simp only [resolveStep, h, List.filter_cons]
      rw [ih]
      have hs : (recipientDests cfg r).isSome = true := by simp [h]
      simp [hs, getLastD_cons]

/-- Claim C3: when no tier matches any recipient, `transformRecipients`
returns the original recipient list with `original` the empty string; in
every case `original` is the last original address, in input order, that
produced a match (the empty string when none did). -/
theorem resolve_fallback_and_original (cfg : ForwarderConfig) (rs : List String) :
    ((∀ r ∈ rs, recipientDests cfg r = none) →
      transformRecipients cfg rs = ⟨"", rs⟩)
    ∧ (transformRecipients cfg rs).original =
        ((rs.filter (fun r => (recipientDests cfg r).isSome)).getLast?).getD "" := by
  constructor
  · intro hall
    have hconcat : matchedConcat cfg rs = [] := by
      induction rs with
      | nil => rfl
      | cons r rest ih =>
        have h1 := hall r (by simp)
        have h2 : ∀ r2 ∈ rest, recipientDests cfg r2 = none := fun r2 hr2 => hall r2 (by simp [hr2])
        simp [matchedConcat, h1, ih h2]
    have hfilter : rs.filter (fun r => (recipientDests cfg r).isSome) = [] := by
      rw [List.filter_eq_nil_iff]
      intro r hr
      simp [hall r hr]
    have h2 : (rs.foldl (resolveStep cfg) ("", [])).2 = [] := by
      rw [foldl_resolveStep_snd]
      simp [hconcat]
    have h1 : (rs.foldl (resolveStep cfg) ("", [])).1 = "" := by
      rw [foldl_resolveStep_fst]
      simp [hfilter]
    simp only [transformRecipients]
    rw [h1, h2]
    simp
  · have hfst := foldl_resolveStep_fst cfg rs "" []
    simp only [transformRecipients]
    split <;> simpa using hfst

/-- Witness for `resolve_fallback_and_original`: an unmatched single
recipient is passed through with an empty `original`. -/
theorem resolve_fallback_and_original_witness :
    transformRecipients
      ⟨"noreply@example.com", "", "", [("other@x", ["o@x"])], true, true, none⟩
      ["nobody@nowhere"] = ⟨"", ["nobody@nowhere"]⟩ :=
  (resolve_fallback_and_original
      ⟨"noreply@example.com", "", "", [("other@x", ["o@x"])], true, true, none⟩
      ["nobody@nowhere"]).1 (by decide)

/-- Claim C10 (amended): when the concatenation, in input order, of the
matched destination lists is nonempty, `transformRecipients` returns exactly
that concatenation (each list's internal order preserved, duplicates kept);
when the concatenation is empty — even if some recipient matched a tier
mapping to an empty list — the original recipient list is returned. -/
theorem recipients_concat_of_matches (cfg : ForwarderConfig) (rs : List String) :
    (matchedConcat cfg rs ≠ [] →
      (transformRecipients cfg rs).recipients = matchedConcat cfg rs)
    ∧ (matchedConcat cfg rs = [] →
      (transformRecipients cfg rs).recipients = rs) := by
  have h2 : (rs.foldl (resolveStep cfg) ("", [])).2 = matchedConcat cfg rs := by
    rw [foldl_resolveStep_snd]
    rfl
  constructor
  · intro hne
    have hie : (rs.foldl (resolveStep cfg) ("", [])).2.isEmpty = false := by
      rw [h2]
      cases h : matchedConcat cfg rs with
      | nil => exact absurd h hne
      | cons y ys => rfl
    simp only [transformRecipients]
    rw [hie]
    simpa using h2
  · intro hnil
    have hie : (rs.foldl (resolveStep cfg) ("", [])).2.isEmpty = true := by
      rw [h2, hnil]
      rfl
    simp only [transformRecipients]
    rw [hie]
    simp

/-- Witness for `recipients_concat_of_matches`: two matching recipients
contribute their lists in input order, duplicates retained. -/
theorem recipients_concat_of_matches_witness :
    (transformRecipients
        ⟨"noreply@example.com", "", "",
          [("a@d", ["x@y", "z@w"]), ("b@d", ["x@y"])], true, true, none⟩
        ["b@d", "a@d"]).recipients = ["x@y", "x@y", "z@w"] := by
  rw [(recipients_concat_of_matches
      ⟨"noreply@example.com", "", "",
        [("a@d", ["x@y", "z@w"]), ("b@d", ["x@y"])], true, true, none⟩
      ["b@d", "a@d"]).1 (by decide)]
  decide

/-! ## Support lemmas: header-line classification -/

lemma isPrefixOf_append_true (p q t : List Char) (h : p.isPrefixOf q = true) :
    p.isPrefixOf (q ++ t) = true := by
  rw [List.isPrefixOf_iff_prefix] at h ⊢
  exact h.trans (List.prefix_append q t)

lemma isPrefixOf_append_false (p q t : List Char) (k : Nat)
    (h1 : (p.take k).isPrefixOf q = false) (h2 : k ≤ q.length) :
    p.isPrefixOf (q ++ t) = false := by
  cases hx : p.isPrefixOf (q ++ t) with
  | false => rfl
  | true =>
    exfalso
    have hpre := List.isPrefixOf_iff_prefix.mp hx
    have htake : p.take k <+: q ++ t := (List.take_prefix k p).trans hpre
    have hlen : (p.take k).length ≤ q.length := le_trans (List.length_take_le k p) h2
    have heq := List.prefix_iff_eq_take.mp htake
    rw [List.take_append_of_le_length hlen] at heq
    have hq : (p.take k).isPrefixOf q = true := by
      rw [List.isPrefixOf_iff_prefix, heq]
      exact List.take_prefix _ _
    rw [h1] at hq
    exact Bool.noConfusion hq

lemma startsWithCI_concrete_true (p : String) (u rest : List Char)
    (h : p.data.isPrefixOf (jsLower u) = true) : startsWithCI p (u ++ rest) = true := by
  unfold startsWithCI
  rw [jsLower_append]
  exact isPrefixOf_append_true _ _ _ h

lemma startsWithCI_concrete_false (p : String) (u rest : List Char) (k : Nat)
    (h1 : (p.data.take k).isPrefixOf (jsLower u) = false) (h2 : k ≤ (jsLower u).length) :
    startsWithCI p (u ++ rest) = false := by
  unfold startsWithCI
  rw [jsLower_append]
  exact isPrefixOf_append_false _ _ _ k h1 h2

lemma exists_suffix_of_startsWithCI {p : String} {l : List Char}
    (h : startsWithCI p l = true) : ∃ t, jsLower l = p.data ++ t := by
  unfold startsWithCI at h
  rcases List.isPrefixOf_iff_prefix.mp h with ⟨t, ht⟩
  exact ⟨t, ht.symm⟩

/-- A `reply-to:` line is neither a `from:` line nor one of the removed
headers. -/
lemma replyToLine_excl {l : List Char} (h : isReplyToLine l = true) :
    isFromLine l = false ∧ isRemovedLine l = false := by
  rcases exists_suffix_of_startsWithCI h with ⟨t, ht⟩
  have hfrom : isFromLine l = false := by
    unfold isFromLine startsWithCI
    rw [ht]
    exact isPrefixOf_append_false _ _ _ 1 (by decide) (by decide)
  have hrp : startsWithCI "return-path:" l = false := by
    unfold startsWithCI
    rw [ht]
    exact isPrefixOf_append_false _ _ _ 3 (by decide) (by decide)
  have hsd : startsWithCI "sender:" l = false := by
    unfold startsWithCI
    rw [ht]
    exact isPrefixOf_append_false _ _ _ 1 (by decide) (by decide)
  have hmi : startsWithCI "message-id:" l = false := by
    unfold startsWithCI
    rw [ht]
    exact isPrefixOf_append_false _ _ _ 1 (by decide) (by decide)
  have hdk : startsWithCI "dkim-signature:" l = false := by
    unfold startsWithCI
    rw [ht]
    exact isPrefixOf_append_false _ _ _ 1 (by decide) (by decide)
  exact ⟨hfrom, by simp [isRemovedLine, hrp, hsd, hmi, hdk]⟩

/-- The synthesized `From` header is a `from:` line and nothing else. -/
lemma newFromLine_class (cfg : ForwarderConfig) (o : String) (line : List Char) :
    isFromLine (newFromLine cfg o line) = true
    ∧ isReplyToLine (newFromLine cfg o line) = false
    ∧ isRemovedLine (newFromLine cfg o line) = false := by
  unfold newFromLine
  split <;>
  · simp only [List.append_assoc]
    refine ⟨startsWithCI_concrete_true _ _ _ (by decide), ?_, ?_⟩
    · exact startsWithCI_concrete_false _ _ _ 1 (by decide) (by decide)
    · simp only [isRemovedLine]
      rw [startsWithCI_concrete_false "return-path:" _ _ 1 (by decide) (by decide),
        startsWithCI_concrete_false "sender:" _ _ 1 (by decide) (by decide),
        startsWithCI_concrete_false "message-id:" _ _ 1 (by decide) (by decide),
        startsWithCI_concrete_false "dkim-signature:" _ _ 1 (by decide) (by decide)]
      rfl

/-- The rewritten `To` header matches none of the counted or removed names. -/
lemma toLineOf_class (uR : List String) :
    isFromLine (toLineOf uR) = false
    ∧ isReplyToLine (toLineOf uR) = false
    ∧ isRemovedLine (toLineOf uR) = false := by
  unfold toLineOf
  refine ⟨startsWithCI_concrete_false _ _ _ 1 (by decide) (by decide),
    startsWithCI_concrete_false _ _ _ 1 (by decide) (by decide), ?_⟩
  simp only [isRemovedLine]
  rw [startsWithCI_concrete_false "return-path:" _ _ 1 (by decide) (by decide),
    startsWithCI_concrete_false "sender:" _ _ 1 (by decide) (by decide),
    startsWithCI_concrete_false "message-id:" _ _ 1 (by decide) (by decide),
    startsWithCI_concrete_false "dkim-signature:" _ _ 1 (by decide) (by decide)]
  rfl

/-- The rewritten `Subject` header matches none of the counted or removed
names. -/
lemma subjectLineOf_class (cfg : ForwarderConfig) (line : List Char) :
    isFromLine (subjectLineOf cfg line) = false
    ∧ isReplyToLine (subjectLineOf cfg line) = false
    ∧ isRemovedLine (subjectLineOf cfg line) = false := by
  unfold subjectLineOf
  simp only [List.append_assoc]
  refine ⟨startsWithCI_concrete_false _ _ _ 1 (by decide) (by decide),
    startsWithCI_concrete_false _ _ _ 1 (by decide) (by decide), ?_⟩
  simp only [isRemovedLine]
  rw [startsWithCI_concrete_false "return-path:" _ _ 1 (by decide) (by decide),
    startsWithCI_concrete_false "sender:" _ _ 2 (by decide) (by decide),
    startsWithCI_concrete_false "message-id:" _ _ 1 (by decide) (by decide),
    startsWithCI_concrete_false "dkim-signature:" _ _ 1 (by decide) (by decide)]
  rfl

/-- The synthesized `Reply-To` header is a `reply-to:` line and nothing
else. -/
lemma replyToLineOf_class (x : List Char) :
    isReplyToLine (replyToLineOf x) = true
    ∧ isFromLine (replyToLineOf x) = false
    ∧ isRemovedLine (replyToLineOf x) = false := by
  unfold replyToLineOf
  refine ⟨startsWithCI_concrete_true _ _ _ (by decide),
    startsWithCI_concrete_false _ _ _ 1 (by decide) (by decide), ?_⟩
  simp only [isRemovedLine]
  rw [startsWithCI_concrete_false "return-path:" _ _ 3 (by decide) (by decide),
    startsWithCI_concrete_false "sender:" _ _ 1 (by decide) (by decide),
    startsWithCI_concrete_false "message-id:" _ _ 1 (by decide) (by decide),
    startsWithCI_concrete_false "dkim-signature:" _ _ 1 (by decide) (by decide)]
  rfl

/-- The four structural facts about the header-line loop: it preserves the
number of `from:` lines, preserves the number of `reply-to:` lines, its
`hasReplyTo` flag records whether any `reply-to:` line was seen, and it
never emits a line matching the removal pattern. -/
lemma rewriteLines_spec (cfg : ForwarderConfig) (oR : String) (uR : List String) :
    ∀ (ls : List (List Char)) (hRT : Bool) (fA : List Char),
      cntLines isFromLine (rewriteLines cfg oR uR ls hRT fA).1 = cntLines isFromLine ls
      ∧ cntLines isReplyToLine (rewriteLines cfg oR uR ls hRT fA).1 =
          cntLines isReplyToLine ls
      ∧ (rewriteLines cfg oR uR ls hRT fA).2.1 = (hRT || ls.any isReplyToLine)
      ∧ (∀ l ∈ (rewriteLines cfg oR uR ls hRT fA).1, isRemovedLine l = false) := by
  intro ls
  induction ls with
  | nil => intro hRT fA; simp [rewriteLines, cntLines]
  | cons line rest ih =>
    intro hRT fA
    by_cases h1 : isReplyToLine line = true
    · obtain ⟨iF, iR, iFlag, iRem⟩ := ih true fA
      have hx := replyToLine_excl h1
      simp only [rewriteLines, h1, if_true]
      refine ⟨?_, ?_, ?_, ?_⟩
      · simpa [cntLines, List.filter_cons, hx.1] using iF
      · simpa [cntLines, List.filter_cons, h1] using iR
      · simp [iFlag, List.any_cons, h1]
      · intro l hl
        rcases List.mem_cons.mp hl with rfl | hl
        · exact hx.2
        · exact iRem l hl
    · have h1f : isReplyToLine line = false := by simpa using h1
      by_cases h2 : isFromLine line = true
      · obtain ⟨iF, iR, iFlag, iRem⟩ := ih hRT (afterHeaderName 5 line)
        have nf := newFromLine_class cfg oR line
        simp only [rewriteLines, h1f, Bool.false_eq_true, if_false, h2, if_true]
        refine ⟨?_, ?_, ?_, ?_⟩
        · simpa [cntLines, List.filter_cons, nf.1, h2] using iF
        · simpa [cntLines, List.filter_cons, nf.2.1, h1f] using iR
        · simp [iFlag, List.any_cons, h1f]
        · intro l hl
          rcases List.mem_cons.mp hl with rfl | hl
          · exact nf.2.2
          · exact iRem l hl
      · have h2f : isFromLine line = false := by simpa using h2
        by_cases h3 : isToLine line = true
        · obtain ⟨iF, iR, iFlag, iRem⟩ := ih hRT fA
          have nt := toLineOf_class uR
          simp only [rewriteLines, h1f, Bool.false_eq_true, if_false, h2f, h3, if_true]
          refine ⟨?_, ?_, ?_, ?_⟩
          · simpa [cntLines, List.filter_cons, nt.1, h2f] using iF
          · simpa [cntLines, List.filter_cons, nt.2.1, h1f] using iR
          · simp [iFlag, List.any_cons, h1f]
          · intro l hl
            rcases List.mem_cons.mp hl with rfl | hl
            · exact nt.2.2
            · exact iRem l hl
        · have h3f : isToLine line = false := by simpa using h3
          by_cases h4 : isSubjectLine line = true ∧ cfg.subjectPrefixVal ≠ ""
          · obtain ⟨iF, iR, iFlag, iRem⟩ := ih hRT fA
            have ns := subjectLineOf_class cfg line
            simp only [rewriteLines, h1f, Bool.false_eq_true, if_false, h2f, h3f]
            rw [if_pos h4]
            refine ⟨?_, ?_, ?_, ?_⟩
            · simpa [cntLines, List.filter_cons, ns.1, h2f] using iF
            · simpa [cntLines, List.filter_cons, ns.2.1, h1f] using iR
            · simp [iFlag, List.any_cons, h1f]
            · intro l hl
              rcases List.mem_cons.mp hl with rfl | hl
              · exact ns.2.2
              · exact iRem l hl
          · obtain ⟨iF, iR, iFlag, iRem⟩ := ih hRT fA
            simp only [rewriteLines, h1f, Bool.false_eq_true, if_false, h2f, h3f]
            rw [if_neg h4]
            by_cases h5 : isRemovedLine line = false
            · rw [if_pos h5]
              refine ⟨?_, ?_, ?_, ?_⟩
              · simpa [cntLines, List.filter_cons, h2f] using iF
              · simpa [cntLines, List.filter_cons, h1f] using iR
              · simp [iFlag, List.any_cons, h1f]
              · intro l hl
                rcases List.mem_cons.mp hl with rfl | hl
                · exact h5
                · exact iRem l hl
            · rw [if_neg h5]
              refine ⟨?_, ?_, ?_, ?_⟩
              · simpa [cntLines, List.filter_cons, h2f] using iF
              · simpa [cntLines, List.filter_cons, h1f] using iR
              · simp [iFlag, List.any_cons, h1f]
              · exact iRem

lemma cntLines_zero_of_any_false {p : List Char → Bool} {ls : List (List Char)}
    (h : ls.any p = false) : cntLines p ls = 0 := by
  unfold cntLines
  rw [List.any_eq_false] at h
  simp [List.filter_eq_nil_iff.mpr h]

lemma one_le_cntLines_of_any {p : List Char → Bool} {ls : List (List Char)}
    (h : ls.any p = true) : 1 ≤ cntLines p ls := by
  rcases List.any_eq_true.mp h with ⟨x, hx, hpx⟩
  have hm : x ∈ ls.filter p := List.mem_filter.mpr ⟨hx, hpx⟩
  have := List.length_pos.mpr (List.ne_nil_of_mem hm)
  unfold cntLines
  omega

/-- Claim C4 (amended): the rewritten header block contains one `from:`
line per `from:` line of the input header block (each rewritten in place),
and its number of `reply-to:` lines is that of the input when the input has
at least one, else exactly one (the synthesized `Reply-To`).  In particular
the output has exactly one of each only when the input header block has
exactly one `from:` line and at most one `reply-to:` line. -/
theorem rewrite_header_counts (cfg : ForwarderConfig) (oR : String) (uR : List String)
    (msg : List Char) :
    cntLines isFromLine (outputHeaderLines cfg oR msg uR) =
      cntLines isFromLine (inputHeaderLines msg)
    ∧ cntLines isReplyToLine (outputHeaderLines cfg oR msg uR) =
      max (cntLines isReplyToLine (inputHeaderLines msg)) 1 := by
  obtain ⟨sF, sR, sFlag, _⟩ :=
    rewriteLines_spec cfg oR uR (headerLinesOf (splitHeaderBody msg).1) false []
  simp only [outputHeaderLines, processMessageParts, inputHeaderLines]
  cases hAny : (headerLinesOf (splitHeaderBody msg).1).any isReplyToLine with
  | false =>
    have hflag : (rewriteLines cfg oR uR (headerLinesOf (splitHeaderBody msg).1) false []).2.1
        = false := by
      rw [sFlag, hAny]
      rfl
    have hcnt0 : cntLines isReplyToLine (headerLinesOf (splitHeaderBody msg).1) = 0 :=
      cntLines_zero_of_any_false hAny
    by_cases hEmp : (rewriteLines cfg oR uR (headerLinesOf (splitHeaderBody msg).1)
        false []).2.2.isEmpty = false
    · rw [if_pos ⟨hflag, hEmp⟩]
      constructor
      · simp [cntLines, List.filter_append, (replyToLineOf_class _).2.1] at sF ⊢
        exact sF
      · simp only [cntLines] at hcnt0
        simp [cntLines, List.filter_append, (replyToLineOf_class _).1] at sR ⊢
        rw [sR, hcnt0]
        decide
    · rw [if_neg (fun hc => hEmp hc.2), if_pos hflag]
      constructor
      · simp [cntLines, List.filter_append, (replyToLineOf_class _).2.1] at sF ⊢
        exact sF
      · simp only [cntLines] at hcnt0
        simp [cntLines, List.filter_append, (replyToLineOf_class _).1] at sR ⊢
        rw [sR, hcnt0]
        decide
  | true =>
    have hflag : (rewriteLines cfg oR uR (headerLinesOf (splitHeaderBody msg).1) false []).2.1
        = true := by
      rw [sFlag, hAny]
      rfl
    rw [if_neg (fun hc => by rw [hflag] at hc; exact Bool.noConfusion hc.1),
      if_neg (fun hc => by rw [hflag] at hc; exact Bool.noConfusion hc)]
    refine ⟨sF, ?_⟩
    rw [sR, Nat.max_eq_left (one_le_cntLines_of_any hAny)]

/-- Counterexample to claim C4 as stated: a message with two `Reply-To`
headers and no `From` header is rewritten to a header block with two
`reply-to:` lines and no `from:` line — not exactly one of each. -/
theorem rewrite_header_counts_cex :
    cntLines isFromLine
        (outputHeaderLines ⟨"noreply@example.com", "", "", [], true, true, none⟩ "o@d"
          ("Reply-To: a@b\r\nReply-To: c@d\r\n\r\nx\r\n").data ["d@y"]) = 0
    ∧ cntLines isReplyToLine
        (outputHeaderLines ⟨"noreply@example.com", "", "", [], true, true, none⟩ "o@d"
          ("Reply-To: a@b\r\nReply-To: c@d\r\n\r\nx\r\n").data ["d@y"]) = 2 := by
  exact ⟨by decide, by decide⟩

/-- Claim C5 (amended): no line of the rewritten header block matches the
removal pattern `^(return-path|sender|message-id|dkim-signature):`, so a
second application of the removal step drops nothing — but the *folded
continuation lines* of a dropped `DKIM-Signature` header do not match the
pattern either and survive (see the counterexample). -/
theorem rewrite_removed_headers_absent (cfg : ForwarderConfig) (oR : String)
    (uR : List String) (msg : List Char) :
    (∀ l ∈ outputHeaderLines cfg oR msg uR, isRemovedLine l = false)
    ∧ (outputHeaderLines cfg oR msg uR).filter (fun l => ! isRemovedLine l) =
        outputHeaderLines cfg oR msg uR := by
  obtain ⟨_, _, _, sRem⟩ :=
    rewriteLines_spec cfg oR uR (headerLinesOf (splitHeaderBody msg).1) false []
  have habs : ∀ l ∈ outputHeaderLines cfg oR msg uR, isRemovedLine l = false := by
    intro l hl
    simp only [outputHeaderLines, processMessageParts] at hl
    split at hl
    · rcases List.mem_append.mp hl with hl | hl
      · exact sRem l hl
      · rcases List.mem_singleton.mp hl with rfl
        exact (replyToLineOf_class _).2.2
    · split at hl
      · rcases List.mem_append.mp hl with hl | hl
        · exact sRem l hl
        · rcases List.mem_singleton.mp hl with rfl
          exact (replyToLineOf_class _).2.2
      · exact sRem l hl
  refine ⟨habs, List.filter_eq_self.mpr ?_⟩
  intro l hl
  simp [habs l hl]

/-- Witness for `rewrite_removed_headers_absent`: on a concrete message the
kept line `X-Test: 1` is classified as not removed, and re-filtering the
output with the removal test keeps every line. -/
theorem rewrite_removed_headers_absent_witness :
    isRemovedLine "X-Test: 1".data = false
    ∧ (outputHeaderLines ⟨"noreply@example.com", "", "", [], true, true, none⟩ "o@d"
          ("Sender: s@t\r\nX-Test: 1\r\n\r\nb\r\n").data ["d@y"]).filter
        (fun l => ! isRemovedLine l) =
      outputHeaderLines ⟨"noreply@example.com", "", "", [], true, true, none⟩ "o@d"
        ("Sender: s@t\r\nX-Test: 1\r\n\r\nb\r\n").data ["d@y"] :=
  ⟨(rewrite_removed_headers_absent ⟨"noreply@example.com", "", "", [], true, true, none⟩
      "o@d" ["d@y"] ("Sender: s@t\r\nX-Test: 1\r\n\r\nb\r\n").data).1
      "X-Test: 1".data (by decide),
    (rewrite_removed_headers_absent ⟨"noreply@example.com", "", "", [], true, true, none⟩
      "o@d" ["d@y"] ("Sender: s@t\r\nX-Test: 1\r\n\r\nb\r\n").data).2⟩

/-- Counterexample to claim C5 as stated: the folded continuation line of a
dropped `DKIM-Signature` header survives the rewrite and is still present in
the output header block. -/
theorem dkim_continuation_survives_cex :
    " h=from;".data ∈
      outputHeaderLines ⟨"noreply@example.com", "", "", [], true, true, none⟩ "o@d"
        ("DKIM-Signature: v=1;\r\n h=from;\r\nFrom: A <a@b.c>\r\n\r\nx\r\n").data ["d@y"] := by
  decide

/-- Counterexample to claim C10 as stated: a recipient that *does* match a
tier whose destination list is empty still triggers the fallback, so the
result is the original list, not the (empty) concatenation. -/
theorem empty_destination_list_cex :
    (recipientDests
        ⟨"noreply@example.com", "", "", [("a@d", [])], true, true, none⟩ "a@d").isSome = true
    ∧ matchedConcat
        ⟨"noreply@example.com", "", "", [("a@d", [])], true, true, none⟩ ["a@d"] = []
    ∧ (transformRecipients
        ⟨"noreply@example.com", "", "", [("a@d", [])], true, true, none⟩ ["a@d"]).recipients =
      ["a@d"] := by
  exact ⟨by decide, by decide, by decide⟩

/-! ## Theorems: header-rewrite scenario (claim C7) -/

set_option maxRecDepth 40000 in
/-- Evaluation of `processMessage` at the scenario of claim C7: the `From`
header is rewritten to `From: Alice <noreply@y.com>` and
`Reply-To: Alice <alice@x.com>` is synthesized exactly as claimed, but the
body text `Body` — which has no trailing newline and is therefore not
consumed by the `(?:.*\s+)*` part of the splitting regex — is dropped from
the output instead of being passed through unchanged. -/
theorem rewrite_scenario_eval :
    processMessage ⟨"noreply@y.com", "", "", [], true, true, none⟩ "orig@dom"
        "From: Alice <alice@x.com>\r\nSubject: Hi\r\n\r\nBody" ["dest@y"] =
      "From: Alice <noreply@y.com>\r\nSubject: Hi\r\nReply-To: Alice <alice@x.com>\r\n\r\n\r\n\r\n\r\n---\r\nForwarded by noreply@y.com. Reply to: Alice <alice@x.com>"
    ∧ ¬ ("Body".data <:+:
        (processMessage ⟨"noreply@y.com", "", "", [], true, true, none⟩ "orig@dom"
          "From: Alice <alice@x.com>\r\nSubject: Hi\r\n\r\nBody" ["dest@y"]).data) := by
  exact ⟨by decide, by decide⟩

/-! ## Theorems: orchestration (claims C6, C8) -/

/-- Claim C6 (amended): provided the event validates and the notification
step succeeds, an invocation with `rejectSpam` enabled in which some verdict
is `FAIL` halts before the S3 fetch and the SES send (neither client call is
made) and is reported as the distinct spam rejection, not a generic error. -/
theorem spam_fail_halts_pipeline (cfg : ForwarderConfig) (env : EnvModel) (ev : SESEventV)
    (m : SESMessageV) (hp : parseEvent ev = Except.ok m)
    (hd : sendDiscordMessage cfg env.discordOk = Except.ok ())
    (hr : cfg.rejectSpam = true) (hf : anyVerdictFails m.receipt = true) :
    handler cfg env ev = Except.ok ⟨⟨false, false⟩, Outcome.spamRejected⟩ := by
  unfold handler handlerBody
  rw [hp, hd]
  simp [filterSpam, hr, hf]

/-- Witness for `spam_fail_halts_pipeline` at a concrete valid event with a
failing spam verdict. -/
theorem spam_fail_halts_pipeline_witness :
    handler ⟨"noreply@example.com", "", "", [], true, true, none⟩
        ⟨"bucket", some "raw", true, true⟩
        ⟨[⟨"aws:ses", "1.0", ⟨⟨"mid"⟩, ⟨["r@d"], some ⟨"FAIL"⟩, none, none, none, none⟩⟩⟩]⟩ =
      Except.ok ⟨⟨false, false⟩, Outcome.spamRejected⟩ :=
  spam_fail_halts_pipeline ⟨"noreply@example.com", "", "", [], true, true, none⟩
    ⟨"bucket", some "raw", true, true⟩
    ⟨[⟨"aws:ses", "1.0", ⟨⟨"mid"⟩, ⟨["r@d"], some ⟨"FAIL"⟩, none, none, none, none⟩⟩⟩]⟩
    ⟨⟨"mid"⟩, ⟨["r@d"], some ⟨"FAIL"⟩, none, none, none, none⟩⟩
    rfl rfl rfl rfl

/-- Counterexample to claim C6 as stated: with a configured notification
webhook that fails, an invocation with `rejectSpam` enabled and a `FAIL`
spam verdict is reported as a *generic* error (the notification failure),
not as the distinct spam rejection — fetch and send are still not invoked. -/
theorem spam_fail_outcome_cex :
    handler
        ⟨"noreply@example.com", "", "", [], true, true, some "https://discord.example/hook"⟩
        ⟨"bucket", some "raw", false, true⟩
        ⟨[⟨"aws:ses", "1.0", ⟨⟨"mid"⟩, ⟨["r@d"], some ⟨"FAIL"⟩, none, none, none, none⟩⟩⟩]⟩ =
      Except.ok ⟨⟨false, false⟩, Outcome.genericError⟩
    ∧ anyVerdictFails ⟨["r@d"], some ⟨"FAIL"⟩, none, none, none, none⟩ = true := by
  exact ⟨rfl, rfl⟩

/-- Claim C8 (amended): the handler returns normally on *every* input —
every thrown stage failure, the missing-bucket assertion included, is caught
by the catch-all `catch` block and logged; nothing propagates to the
runtime as an uncaught fault. -/
theorem handler_never_propagates (cfg : ForwarderConfig) (env : EnvModel) (ev : SESEventV) :
    ∃ t, handler cfg env ev = Except.ok t := by
  unfold handler
  rcases h : handlerBody cfg env ev with ⟨f, r⟩
  cases r with
  | ok u => exact ⟨⟨f, Outcome.success⟩, rfl⟩
  | error e => cases e <;> exact ⟨_, rfl⟩

/-- Counterexample to the exception clause of claim C8: with the bucket
environment variable missing, the `assert` in `fetchMessage` throws, but the
handler *catches* the assertion failure and returns normally with a logged
generic error — the invocation is not aborted as an uncaught fault. -/
theorem missing_bucket_caught_cex :
    handler ⟨"noreply@example.com", "", "", [], true, false, none⟩
        ⟨"", some "raw", true, true⟩
        ⟨[⟨"aws:ses", "1.0", ⟨⟨"mid"⟩, ⟨["r@d"], none, none, none, none, none⟩⟩⟩]⟩ =
      Except.ok ⟨⟨false, false⟩, Outcome.genericError⟩ := by
  rfl

/-! ## Theorems: Message Sender (claim C9) -/

/-- Claim C9 (amended): `sendMessage` always submits with
`Source = CONFIG.fromEmail` — the configured value, or the default
`noreply@example.com` when `config.json` does not set one.  The resolved
`original` value passed to it is ignored: the parameters do not depend on
it at all. -/
theorem send_source_is_fromEmail (u : UserConfig) (o : String) (ur : List String)
    (mb : String) :
    (sendParams (mkConfig u) o ur mb).Source = (mkConfig u).fromEmail
    ∧ ∀ o2 : String, sendParams (mkConfig u) o ur mb = sendParams (mkConfig u) o2 ur mb :=
  ⟨rfl, fun _ => rfl⟩

/-- Counterexample to claim C9 as stated: when `config.json` sets no
`fromEmail`, the claim says the resolved `original` becomes the source; the
code instead uses the merged default `noreply@example.com`. -/
theorem send_source_cex :
    (sendParams (mkConfig ⟨none, none, none, none, none, none, none⟩) "user@x.com" ["d@y"]
        "raw").Source = "noreply@example.com"
    ∧ ("noreply@example.com" : String) ≠ "user@x.com" := by
  exact ⟨rfl, by decide⟩

end AwsSesForwarder
